import Mathlib

/-!
# CuteWhisper — verification of the hotkey / capture / dictation core

Shallow embedding of the push-to-talk dictation utility:

* `src/hotkey/hotkey_manager.py` — hotkey spec validation and parsing,
  press/release key-event handling with the `hotkey_was_active` armed flag
  and the `start_in_progress` / `stop_in_progress` single-flight flags,
  and `reload_hotkey`;
* `src/audio/recorder.py` — the recorder state machine
  (`start_recording` / `stop_recording` / `is_recording`) and the
  float→int16 sample conversion `(audio * 32767).astype(np.int16)`
  together with the little-endian byte serialization done by `tobytes()`;
* `src/main.py` — the `stop_dictation` orchestration path
  (stop capture → transcribe → history append → text injection);
* `src/config/settings.py` — `Config.get` dot-path lookup and the
  sample-rate validation of `validate_config`.

Python dictionaries, sets and exceptions are rendered as association
lists, duplicate-free lists and explicit result values.  Key events are
an explicit event alphabet; the completion of an asynchronously
dispatched start/stop callback (the `finally` blocks of `_wrapped_start`
/ `_wrapped_stop`, which clear the in-flight flags on a worker thread)
is modelled as its own event, so interleavings of OS key events with
callback completions are expressible.
-/

namespace CuteWhisper

/-! ## Keys — the pynput key alphabet used by the hotkey manager

`pynput` delivers either a named special key (`Key.ctrl_l`, `Key.space`,
…) or a character key carrying a `char` attribute.  -/

/-- A key event payload: a named special key or a character key. -/
inductive PKey where
  | named (s : String)
  | ch (c : Char)
deriving DecidableEq, Repr

/-! ## Hotkey spec validation and parsing (`_validate_hotkey_format`,
`_parse_hotkey_config`) -/

/-- The `valid_modifiers` list of `_validate_hotkey_format`. -/
def validModifiers : List String :=
  ["ctrl", "control", "ctrl_l", "ctrl_r",
   "alt", "alt_l", "alt_r",
   "shift", "shift_l", "shift_r",
   "cmd", "win", "windows", "meta"]

/-- The `valid_special_keys` list of `_validate_hotkey_format`. -/
def validSpecialKeys : List String :=
  ["space", "tab", "enter", "return", "escape",
   "up", "down", "left", "right",
   "f1", "f2", "f3", "f4", "f5", "f6", "f7", "f8", "f9", "f10", "f11", "f12"]

/-- Python `str.split(sep)` for a one-character separator, on character
lists: splitting the empty string yields `[""]`, and `n` separator
occurrences yield `n + 1` parts. -/
def splitChar (sep : Char) : List Char → List (List Char)
  | [] => [[]]
  | c :: cs =>
    let r := splitChar sep cs
    if c = sep then [] :: r
    else
      match r with
      | [] => [[c]]
      | p :: ps => (c :: p) :: ps

/-- Normalisation applied before splitting: lowercase, drop spaces and
split on `+` (`hotkey_str.lower().replace(' ', '').split('+')`),
rendered on character lists so it evaluates inside the kernel. -/
def hotkeyParts (s : String) : List String :=
  (splitChar '+' ((s.data.map Char.toLower).filter (fun c => !(c = ' ')))).map
    List.asString

/-- `HotkeyManager._validate_hotkey_format`: at least modifier+key,
no empty parts, every leading part a known modifier, and the last part a
known special key or a single alphanumeric character. -/
def validateHotkeyFormat (s : String) : Bool :=
  if s = "" then false
  else
    let parts := hotkeyParts s
    if parts.length < 2 then false
    else if parts.any (fun p => p = "") then false
    else
      let actionKey := parts.getLastD ""
      if !(parts.dropLast.all (fun p => validModifiers.contains p)) then false
      else if validSpecialKeys.contains actionKey then true
      else if actionKey.length = 1 && (actionKey.toList.all Char.isAlphanum) then true
      else false

/-- Result of `_parse_hotkey_config`: the (possibly defaulted) hotkey
string, the modifier name list and the action key name. -/
structure HKConfig where
  hotkeyStr : String
  modifierKeys : List String
  actionKey : String
deriving DecidableEq, Repr

/-- `HotkeyManager._parse_hotkey_config`: fall back to `ctrl+space` when
validation fails, then split into modifiers and action key. -/
def parseHotkeyConfig (s : String) : HKConfig :=
  let s' := if validateHotkeyFormat s then s else "ctrl+space"
  let parts := hotkeyParts s'
  { hotkeyStr := s', modifierKeys := parts.dropLast, actionKey := parts.getLastD "" }

/-- The `modifier_key_map` dictionary: modifier name → pynput keys.
`none` models a name absent from the dictionary. -/
def modifierKeyMap : String → Option (List PKey)
  | "ctrl" => some [.named "ctrl_l", .named "ctrl_r", .named "ctrl"]
  | "control" => some [.named "ctrl_l", .named "ctrl_r", .named "ctrl"]
  | "ctrl_l" => some [.named "ctrl_l"]
  | "ctrl_r" => some [.named "ctrl_r"]
  | "alt" => some [.named "alt_l", .named "alt_r", .named "alt"]
  | "alt_l" => some [.named "alt_l"]
  | "alt_r" => some [.named "alt_r"]
  | "shift" => some [.named "shift_l", .named "shift_r", .named "shift"]
  | "shift_l" => some [.named "shift_l"]
  | "shift_r" => some [.named "shift_r"]
  | "cmd" => some [.named "cmd", .named "cmd_l", .named "cmd_r"]
  | "win" => some [.named "cmd", .named "cmd_l", .named "cmd_r"]
  | "windows" => some [.named "cmd", .named "cmd_l", .named "cmd_r"]
  | "meta" => some [.named "cmd", .named "cmd_l", .named "cmd_r"]
  | _ => none

/-- The `action_key_map` dictionary: action name → pynput key. -/
def actionKeyMap : String → Option PKey
  | "space" => some (.named "space")
  | "tab" => some (.named "tab")
  | "enter" => some (.named "enter")
  | "return" => some (.named "enter")
  | "escape" => some (.named "esc")
  | "esc" => some (.named "esc")
  | "up" => some (.named "up")
  | "down" => some (.named "down")
  | "left" => some (.named "left")
  | "right" => some (.named "right")
  | "f1" => some (.named "f1")
  | "f2" => some (.named "f2")
  | "f3" => some (.named "f3")
  | "f4" => some (.named "f4")
  | "f5" => some (.named "f5")
  | "f6" => some (.named "f6")
  | "f7" => some (.named "f7")
  | "f8" => some (.named "f8")
  | "f9" => some (.named "f9")
  | "f10" => some (.named "f10")
  | "f11" => some (.named "f11")
  | "f12" => some (.named "f12")
  | _ => none

/-! ## Key-event state machine (`_on_press`, `_on_release`) -/

/-- Mutable state of `HotkeyManager` touched by the event callbacks:
`pressed_modifiers` (a set, kept duplicate-free), the armed flag
`hotkey_was_active`, and the two single-flight flags. -/
structure HKState where
  pressedModifiers : List String
  hotkeyWasActive : Bool
  startInProgress : Bool
  stopInProgress : Bool
deriving DecidableEq, Repr

/-- The state set up by `__init__` (and by the reset in `reload_hotkey`). -/
def initHKState : HKState :=
  { pressedModifiers := [], hotkeyWasActive := false,
    startInProgress := false, stopInProgress := false }

/-- Does pressed/released key `k` count as configured modifier `m`?
(`modifier in self.modifier_key_map` and `key in self.modifier_key_map[modifier]`). -/
def keyIsModifier (m : String) (k : PKey) : Bool :=
  match modifierKeyMap m with
  | some l => l.contains k
  | none => false

/-- The modifier-tracking loop of `_on_press`: the first configured
modifier matched by `k` is added to the pressed set (then `break`). -/
def pressAddModifier (cfg : HKConfig) (k : PKey) (pressed : List String) :
    List String :=
  match cfg.modifierKeys.find? (fun m => keyIsModifier m k) with
  | some m => if pressed.contains m then pressed else m :: pressed
  | none => pressed

/-- The modifier-tracking loop of `_on_release`: the first configured
modifier matched by `k` is discarded from the pressed set. -/
def releaseRemoveModifier (cfg : HKConfig) (k : PKey) (pressed : List String) :
    List String :=
  match cfg.modifierKeys.find? (fun m => keyIsModifier m k) with
  | some m => pressed.erase m
  | none => pressed

/-- Action-key matching used by both `_on_press` and `_on_release`:
special keys via `action_key_map`, otherwise a character key whose
lowered `char` equals the configured action key string. -/
def actionMatches (cfg : HKConfig) (k : PKey) : Bool :=
  match actionKeyMap cfg.actionKey with
  | some ak => k = ak
  | none =>
    match k with
    | .ch c => String.singleton (Char.toLower c) = cfg.actionKey
    | .named _ => false

/-- An edge dispatched by the hotkey manager: spawning the start
callback thread (activation) or the stop callback thread (deactivation). -/
inductive Edge where
  | activate
  | deactivate
deriving DecidableEq, Repr

/-- `HotkeyManager._on_press`: track modifiers, then — when every
configured modifier is in the pressed set and the action key matched —
set `hotkey_was_active` and, unless a start is already in flight,
raise the activation edge. -/
def onPress (cfg : HKConfig) (s : HKState) (k : PKey) : HKState × List Edge :=
  let pressed := pressAddModifier cfg k s.pressedModifiers
  let am := actionMatches cfg k
  let modifiersPressed := cfg.modifierKeys.all (fun m => pressed.contains m)
  if modifiersPressed && am then
    let s' := { s with pressedModifiers := pressed, hotkeyWasActive := true }
    if !s'.startInProgress then
      ({ s' with startInProgress := true }, [.activate])
    else (s', [])
  else ({ s with pressedModifiers := pressed }, [])

/-- `HotkeyManager._on_release`: untrack modifiers, then — when the
action key was released and `hotkey_was_active` — clear the armed flag
and, unless a stop is already in flight, raise the deactivation edge. -/
def onRelease (cfg : HKConfig) (s : HKState) (k : PKey) : HKState × List Edge :=
  let pressed := releaseRemoveModifier cfg k s.pressedModifiers
  let ar := actionMatches cfg k
  if ar && s.hotkeyWasActive then
    let s' := { s with pressedModifiers := pressed, hotkeyWasActive := false }
    if !s'.stopInProgress then
      ({ s' with stopInProgress := true }, [.deactivate])
    else (s', [])
  else ({ s with pressedModifiers := pressed }, [])

/-- An event observed by the hotkey manager's state: an OS key press or
release, or the completion of a previously dispatched start/stop
callback (`_wrapped_start` / `_wrapped_stop` clearing its in-flight flag
in its `finally` block). -/
inductive HKEvent where
  | press (k : PKey)
  | release (k : PKey)
  | startDone
  | stopDone
deriving DecidableEq, Repr

/-- One step of the hotkey manager under an event. -/
def hkStep (cfg : HKConfig) (s : HKState) : HKEvent → HKState × List Edge
  | .press k => onPress cfg s k
  | .release k => onRelease cfg s k
  | .startDone => ({ s with startInProgress := false }, [])
  | .stopDone => ({ s with stopInProgress := false }, [])

/-- Run a sequence of events, accumulating the dispatched edges. -/
def hkRun (cfg : HKConfig) (s : HKState) : List HKEvent → HKState × List Edge
  | [] => (s, [])
  | e :: es =>
    let (s', out) := hkStep cfg s e
    let (s'', rest) := hkRun cfg s' es
    (s'', out ++ rest)

/-- Number of activation edges in a dispatch log. -/
def countActivations (l : List Edge) : Nat :=
  (l.filter (fun e => e = Edge.activate)).length

/-- Number of deactivation edges in a dispatch log. -/
def countDeactivations (l : List Edge) : Nat :=
  (l.filter (fun e => e = Edge.deactivate)).length

/-! ## `reload_hotkey` -/

/-- The full `HotkeyManager` object: parsed configuration, event state
and whether the pynput listener object is running. -/
structure HKManager where
  cfg : HKConfig
  st : HKState
  listenerRunning : Bool
deriving DecidableEq, Repr

/-- `HotkeyManager.reload_hotkey`: raise a busy `RuntimeError` (second
component `some "busy"`, with no state mutated) when the recorder
reports an active recording; otherwise stop the listener, reset the
pressed set and all flags, swap in the (validated, possibly defaulted)
new spec and restart the listener. -/
def reloadHotkey (m : HKManager) (recorderRecording : Bool)
    (newHotkeyStr : String) : HKManager × Option String :=
  if recorderRecording then (m, some "busy")
  else
    ({ cfg := parseHotkeyConfig newHotkeyStr,
       st := initHKState,
       listenerRunning := true }, none)

/-! ## Audio recorder (`src/audio/recorder.py`)

Samples are float32 values in `[-1, 1]`; they are modelled as rationals
(every float32 is a rational, and the arithmetic the recorder performs
on them — multiply by `32767` and truncate — is exact on the sample
range). -/

/-- `(audio * 32767).astype(np.int16)` on a single sample: C-style
float→integer conversion truncates toward zero. -/
def quantizeSample (s : ℚ) : Int :=
  if 0 ≤ s * 32767 then ⌊s * 32767⌋ else ⌈s * 32767⌉

/-- Quantize a block of samples. -/
def quantizeList (l : List ℚ) : List Int := l.map quantizeSample

/-- `numpy.int16.tobytes()` for one value: two's-complement 16-bit
little-endian byte pair. -/
def int16ToLE (i : Int) : List Nat :=
  let u := (i % 65536).toNat
  [u % 256, u / 256]

/-- `audio_data_int16.tobytes()`: little-endian byte serialization of
the int16 sample vector (the PCM data chunk the `wave` module writes). -/
def int16LEBytes (l : List Int) : List Nat :=
  (l.map int16ToLE).flatten

/-- Decoding 16-bit little-endian PCM bytes back to signed samples, as
a WAV reader does. -/
def decodeInt16LE : List Nat → List Int
  | b0 :: b1 :: rest =>
    (if b0 + 256 * b1 < 32768 then ((b0 + 256 * b1 : Nat) : Int)
     else ((b0 + 256 * b1 : Nat) : Int) - 65536) :: decodeInt16LE rest
  | _ => []

/-- State of `AudioRecorder`: the `recording` flag, the accumulated
frame blocks, the open stream handle (if any) and the visualizer
callback slot. -/
structure RecState where
  recording : Bool
  frames : List (List ℚ)
  stream : Option Unit
  audioCallback : Bool
deriving DecidableEq, Repr

/-- The recorder as constructed by `__init__`. -/
def initRecState : RecState :=
  { recording := false, frames := [], stream := none, audioCallback := false }

/-- `AudioRecorder.is_recording`. -/
def isRecording (s : RecState) : Bool := s.recording

/-- Outcome of the external `sounddevice` stream-open sequence inside
`start_recording`: success, `sd.InputStream(...)` raising (stream slot
untouched), or `stream.start()` raising (a stream object was already
assigned). -/
inductive StreamOutcome where
  | ok
  | failCreate
  | failStart
deriving DecidableEq, Repr

/-- Result of `start_recording`. -/
inductive StartResult where
  | ok
  | alreadyRecording
  | deviceError
deriving DecidableEq, Repr

/-- `AudioRecorder.start_recording`: under the lock, return early when
already recording (nothing mutated); otherwise set `recording`, clear
the frame list, install the callback and open+start the stream, undoing
`recording` when the stream sequence raises. -/
def startRecording (s : RecState) (cb : Bool) (o : StreamOutcome) :
    RecState × StartResult :=
  if s.recording then (s, .alreadyRecording)
  else
    let s1 := { s with recording := true, frames := [], audioCallback := cb }
    match o with
    | .ok => ({ s1 with stream := some () }, .ok)
    | .failCreate => ({ s1 with recording := false }, .deviceError)
    | .failStart =>
      ({ s1 with stream := some (), recording := false }, .deviceError)

/-- The stream's `audio_callback`: append a copy of the incoming block
to `frames` under the lock. -/
def appendBlock (s : RecState) (block : List ℚ) : RecState :=
  { s with frames := s.frames ++ [block] }

/-- Result of `stop_recording`: the `None` returns for the
not-recording guard, the empty-frames guard and a WAV-write failure are
distinguished; success carries the serialized PCM sample bytes of the
artifact. -/
inductive StopResult where
  | notRecording
  | noAudio
  | saveFailed
  | artifact (pcmBytes : List Nat)
deriving DecidableEq, Repr

/-- `AudioRecorder.stop_recording`: guard on `recording`, clear it, stop
and close the stream; then, when at least one frame was collected,
concatenate the frames, convert float32→int16 and serialize; a failure
while writing the file returns `None` (the state changes already made
stand).  `wavWriteOk` models whether the external file write raises. -/
def stopRecording (s : RecState) (wavWriteOk : Bool) : RecState × StopResult :=
  if !s.recording then (s, .notRecording)
  else
    let s1 := { s with recording := false, stream := none }
    if s1.frames = [] then (s1, .noAudio)
    else
      let audioData := s1.frames.flatten
      let audioDataInt16 := quantizeList audioData
      if wavWriteOk then (s1, .artifact (int16LEBytes audioDataInt16))
      else (s1, .saveFailed)

/-! ## Configuration values (`src/config/settings.py`) -/

/-- A Python value living in the configuration dictionary.  `bool` is a
subtype of `int` in Python, so `CVal.b` counts as an integer for
`isinstance(x, int)` checks. -/
inductive CVal where
  | null
  | b (v : Bool)
  | i (n : Int)
  | s (v : String)
  | f (num den : Int)
  | dict (entries : List (String × CVal))
deriving Repr

/-- Python's `isinstance(x, int)` (true for `bool` as well). -/
def CVal.pyIsInt : CVal → Bool
  | .i _ => true
  | .b _ => true
  | _ => false

/-- The integer value of a Python int-like value. -/
def CVal.pyIntVal : CVal → Int
  | .i n => n
  | .b v => if v then 1 else 0
  | _ => 0

/-- Dictionary lookup `d.get(key)` (first binding wins, `None` when the
key is absent). -/
def dictGet (entries : List (String × CVal)) (key : String) : Option CVal :=
  match entries.find? (fun e => e.1 = key) with
  | some e => some e.2
  | none => none

/-- The loop body of `Config.get`: walk the dot-separated keys, falling
back to the default whenever a non-dict value must be traversed or a
step yields `None` (absent key or explicit `null`). -/
def configGetGo (dflt : CVal) : CVal → List String → CVal
  | v, [] => v
  | .dict d, k :: ks =>
    match dictGet d k with
    | none => dflt
    | some .null => dflt
    | some v' => configGetGo dflt v' ks
  | _, _ :: _ => dflt

/-- `Config.get(key_path, default)`: split on `.` and walk. -/
def configGet (config : CVal) (keyPath : String) (dflt : CVal) : CVal :=
  configGetGo dflt config ((splitChar '.' keyPath.data).map List.asString)

/-- The sample-rate clause of `Config.validate_config`: the value kept
in `config['audio']['sample_rate']` after validation.  `none` models the
key being absent (`.get('sample_rate')` returning `None`).
`if not isinstance(sample_rate, int) or sample_rate <= 0: ... = 16000`. -/
def validatedSampleRate (v : Option CVal) : Int :=
  match v with
  | some w => if w.pyIsInt && w.pyIntVal > 0 then w.pyIntVal else 16000
  | none => 16000

/-! ## Dictation orchestration (`CuteWhisper.stop_dictation`) -/

/-- The dictionary returned by `WhisperTranscriber.transcribe`, read
through `result.get(...)` with defaults: possibly-missing `text`,
`language` and `duration` entries. -/
structure TResult where
  text : Option String
  language : Option String
  duration : Option ℚ
deriving DecidableEq, Repr

/-- Outcome of the external transcription call: a result dictionary, or
an exception caught by `stop_dictation`'s handlers. -/
inductive TranscribeOutcome where
  | ok (r : TResult)
  | err
deriving DecidableEq, Repr

/-- Python `str.strip()`: drop whitespace from both ends. -/
def pyStrip (s : String) : String :=
  ((s.data.dropWhile Char.isWhitespace).reverse.dropWhile
    Char.isWhitespace).reverse.asString

/-- An observable call `stop_dictation` makes on its collaborators. -/
inductive OrchCall where
  | historyAdd (text language : String) (duration : ℚ)
  | inject (text : String)
deriving DecidableEq, Repr

/-- `CuteWhisper.stop_dictation`: guard on `is_recording`; stop the
recorder; bail out when no artifact path was produced; transcribe; strip
the text and bail out when empty; otherwise append one history entry and
make one injection call (whose success only affects reporting).  Returns
the recorder state and the calls made to history and injector. -/
def stopDictation (rec : RecState) (wavWriteOk : Bool)
    (tr : TranscribeOutcome) (injectOk : Bool) : RecState × List OrchCall :=
  if !isRecording rec then (rec, [])
  else
    let recRes := stopRecording rec wavWriteOk
    match recRes.2 with
    | .artifact _ =>
      match tr with
      | .ok r =>
        let text := pyStrip (r.text.getD "")
        if text = "" then (recRes.1, [])
        else
          let duration := r.duration.getD 0
          let language := r.language.getD "en"
          (recRes.1, [OrchCall.historyAdd text language duration,
                      OrchCall.inject text])
      | .err => (recRes.1, [])
    | _ => (recRes.1, [])

/-- Is a configuration value a Python `dict`? -/
def CVal.isDict : CVal → Bool
  | .dict _ => true
  | _ => false

/-! ## Helper lemmas shared by the theorems below -/

/-- `stop_recording` always leaves `recording = False`: the guard path
starts from a non-recording state and every other path clears the flag
first. -/
theorem stopRecording_recording_false (s : RecState) (w : Bool) :
    ((stopRecording s w).1).recording = false := by
  unfold stopRecording
  split_ifs <;> simp_all <;> (split <;> rfl)

/-- When a session existed, `stop_recording` stops and closes the
stream (the `stream` slot is cleared) on every path. -/
theorem stopRecording_stream_none (s : RecState) (w : Bool)
    (h : s.recording = true) : ((stopRecording s w).1).stream = none := by
  unfold stopRecording
  split_ifs <;> simp_all <;> (split <;> rfl)

/-- The not-recording guard of `stop_recording` mutates nothing. -/
theorem stopRecording_notRecording_id (s : RecState) (w : Bool)
    (h : s.recording = false) : stopRecording s w = (s, .notRecording) := by
  unfold stopRecording
  simp [h]

/-- A recorder mid-session: recording, with two collected blocks. -/
def busyRec : RecState :=
  { recording := true, frames := [[1/4], [1/2]], stream := some (),
    audioCallback := false }

/-! ## Claim theorems -/

/-- C4: calling `start_recording` while a session exists takes the
`AlreadyRecording` guard and leaves the recorder state literally
unchanged, so the artifact eventually produced by `stop_recording` is
identical to the one produced without the second start call. -/
theorem startRecording_alreadyRecording_untouched (s : RecState) (cb : Bool)
    (o : StreamOutcome) (h : isRecording s = true) :
    startRecording s cb o = (s, .alreadyRecording) ∧
    (∀ w, stopRecording ((startRecording s cb o).1) w = stopRecording s w) := by
  have hr : s.recording = true := h
  have hstart : startRecording s cb o = (s, .alreadyRecording) := by
    unfold startRecording; simp [hr]
  exact ⟨hstart, fun w => by rw [hstart]⟩

/-- Witness for C4 at a concrete mid-session recorder. -/
theorem startRecording_alreadyRecording_untouched_witness :
    isRecording busyRec = true ∧
    startRecording busyRec false .ok = (busyRec, .alreadyRecording) :=
  ⟨rfl, (startRecording_alreadyRecording_untouched busyRec false .ok rfl).1⟩

/-- C5: `stop_recording` with no session returns the `NotRecording`
guard value (and only then); with a session but zero collected frames it
returns the no-audio error; an artifact is only ever produced from a
non-empty frame list, so no empty capture yields a WAV. -/
theorem stopRecording_error_guards (s : RecState) (w : Bool) :
    ((stopRecording s w).2 = .notRecording ↔ isRecording s = false) ∧
    (isRecording s = true → s.frames = [] → (stopRecording s w).2 = .noAudio) ∧
    (∀ b, (stopRecording s w).2 = .artifact b → s.frames ≠ []) := by
  rcases s with ⟨r, fr, st, cb⟩
  cases r
  · simp [stopRecording, isRecording]
  · by_cases hf : fr = []
    · subst hf; cases w <;> simp [stopRecording, isRecording]
    · cases w <;> simp [stopRecording, isRecording, hf]

/-- Witness for C5: a session with zero frames stops with the no-audio
error, and a missing session reports `NotRecording`. -/
theorem stopRecording_error_guards_witness :
    (stopRecording { recording := true, frames := [], stream := some (),
                     audioCallback := false } true).2 = .noAudio ∧
    (stopRecording initRecState true).2 = .notRecording :=
  ⟨(stopRecording_error_guards _ true).2.1 rfl rfl,
   (stopRecording_error_guards initRecState true).1.mpr rfl⟩

/-- C9: after any `stop_recording` call, `is_recording()` is `False`;
when a session existed its stream was stopped, closed and dropped on
every path (artifact, zero frames, or WAV-write failure), and when no
session existed the call mutates nothing at all. -/
theorem stopRecording_always_clears_recording (s : RecState) (w : Bool) :
    isRecording ((stopRecording s w).1) = false ∧
    (isRecording s = true → ((stopRecording s w).1).stream = none) ∧
    (isRecording s = false → stopRecording s w = (s, .notRecording)) :=
  ⟨stopRecording_recording_false s w,
   fun h => stopRecording_stream_none s w h,
   fun h => stopRecording_notRecording_id s w h⟩

/-- Witness for C9: a failing WAV write still leaves the recorder
stopped with the stream closed. -/
theorem stopRecording_always_clears_recording_witness :
    isRecording ((stopRecording busyRec false).1) = false ∧
    ((stopRecording busyRec false).1).stream = none :=
  ⟨(stopRecording_always_clears_recording busyRec false).1,
   (stopRecording_always_clears_recording busyRec false).2.1 rfl⟩

/-- C10: `Config.get` walks the dot-path and returns the supplied
default whenever a step yields `None` — an absent key or a key
explicitly bound to `null` are indistinguishable — or a non-dict value
must be traversed further. -/
theorem configGet_null_and_nondict_default :
    (∀ c p dflt, configGet c p dflt =
      configGetGo dflt c ((splitChar '.' p.data).map List.asString)) ∧
    (∀ dflt (d : List (String × CVal)) k ks, dictGet d k = none →
      configGetGo dflt (.dict d) (k :: ks) = dflt) ∧
    (∀ dflt (d : List (String × CVal)) k ks, dictGet d k = some .null →
      configGetGo dflt (.dict d) (k :: ks) = dflt) ∧
    (∀ dflt (v : CVal) k ks, v.isDict = false →
      configGetGo dflt v (k :: ks) = dflt) := by
  refine ⟨fun c p dflt => rfl, ?_, ?_, ?_⟩
  · intro dflt d k ks h
    simp [configGetGo, h]
  · intro dflt d k ks h
    simp [configGetGo, h]
  · intro dflt v k ks h
    cases v <;> simp_all [configGetGo, CVal.isDict]

/-- Witness for C10: a key set to `null` yields the default through the
public `get`. -/
theorem configGet_null_and_nondict_default_witness :
    configGet (CVal.dict [("hotkey", CVal.null)]) "hotkey"
      (CVal.s "fallback") = CVal.s "fallback" := by
  rw [configGet_null_and_nondict_default.1
        (CVal.dict [("hotkey", CVal.null)]) "hotkey" (CVal.s "fallback")]
  have hsplit : (splitChar '.' "hotkey".data).map List.asString = ["hotkey"] := by
    decide
  rw [hsplit]
  exact configGet_null_and_nondict_default.2.2.1
    (CVal.s "fallback") [("hotkey", CVal.null)] "hotkey" [] rfl

/-- C8: every hotkey string the validator rejects (empty, missing
modifier, unknown modifier, empty part, invalid action key) parses to
the default `ctrl+space`, and a sample-rate value that is not a Python
integer, or is non-positive, validates to `16000`, while positive
integers are kept. -/
theorem invalid_config_falls_back :
    (∀ s, validateHotkeyFormat s = false →
      parseHotkeyConfig s =
        { hotkeyStr := "ctrl+space", modifierKeys := ["ctrl"],
          actionKey := "space" }) ∧
    validateHotkeyFormat "" = false ∧
    validateHotkeyFormat "space" = false ∧
    validateHotkeyFormat "ctrl+" = false ∧
    validateHotkeyFormat "foo+space" = false ∧
    validateHotkeyFormat "ctrl+spacebar" = false ∧
    (∀ v : Option CVal, (∀ u, v = some u → u.pyIsInt = false) →
      validatedSampleRate v = 16000) ∧
    (∀ n : Int, n ≤ 0 → validatedSampleRate (some (.i n)) = 16000) ∧
    (∀ n : Int, 0 < n → validatedSampleRate (some (.i n)) = n) := by
  refine ⟨?_, by decide, by decide, by decide, by decide, by decide, ?_, ?_, ?_⟩
  · intro s h
    unfold parseHotkeyConfig
    rw [h]
    simp only [Bool.false_eq_true, if_false]
    decide
  · intro v hv
    cases v with
    | none => rfl
    | some u =>
      have := hv u rfl
      unfold validatedSampleRate
      simp [this]
  · intro n hn
    unfold validatedSampleRate CVal.pyIsInt CVal.pyIntVal
    simp
    omega
  · intro n hn
    unfold validatedSampleRate CVal.pyIsInt CVal.pyIntVal
    simp
    omega

/-- Witness for C8: the out-of-range spec `ctrl+spacebar` and the
sample rate `-1` both fall back. -/
theorem invalid_config_falls_back_witness :
    parseHotkeyConfig "ctrl+spacebar" =
      { hotkeyStr := "ctrl+space", modifierKeys := ["ctrl"],
        actionKey := "space" } ∧
    validatedSampleRate (some (.i (-1))) = 16000 :=
  ⟨invalid_config_falls_back.1 "ctrl+spacebar" (by decide),
   invalid_config_falls_back.2.2.2.2.2.2.2.1 (-1) (by norm_num)⟩

/-! ## Quantization facts (for the claims about `stop_recording`'s
float→int16 conversion) -/

/-- The C cast truncates `0.0` to `0`. -/
theorem quantizeSample_zero : quantizeSample 0 = 0 := by
  unfold quantizeSample; norm_num

/-- The C cast truncates `0.5 * 32767 = 16383.5` to `16383`. -/
theorem quantizeSample_half : quantizeSample (1/2) = 16383 := by
  unfold quantizeSample
  rw [if_pos (by norm_num)]
  rw [Int.floor_eq_iff]
  norm_num

/-- The C cast truncates `-16383.5` toward zero, to `-16383`. -/
theorem quantizeSample_neg_half : quantizeSample (-(1/2)) = -16383 := by
  unfold quantizeSample
  rw [if_neg (by norm_num)]
  rw [Int.ceil_eq_iff]
  norm_num

/-- `1.0` maps to `32767` exactly. -/
theorem quantizeSample_one : quantizeSample 1 = 32767 := by
  unfold quantizeSample
  rw [if_pos (by norm_num)]
  rw [Int.floor_eq_iff]
  norm_num

/-- `-1.0` maps to `-32767` (not `-32768`): `-1.0 * 32767 = -32767`. -/
theorem quantizeSample_neg_one : quantizeSample (-1) = -32767 := by
  unfold quantizeSample
  rw [if_neg (by norm_num)]
  rw [Int.ceil_eq_iff]
  norm_num

/-- On samples in `[-1, 1]` the truncating cast lands inside the int16
range (no clamping is needed, and none is performed). -/
theorem quantizeSample_bounds (s : ℚ) (h1 : -1 ≤ s) (h2 : s ≤ 1) :
    -32768 ≤ quantizeSample s ∧ quantizeSample s ≤ 32767 := by
  unfold quantizeSample
  split_ifs with h
  · constructor
    · have : (0:Int) ≤ ⌊s * 32767⌋ := Int.floor_nonneg.mpr h
      omega
    · have hle : s * 32767 ≤ ((32767:ℤ):ℚ) := by push_cast; nlinarith
      calc ⌊s * 32767⌋ ≤ ⌊((32767:ℤ):ℚ)⌋ := Int.floor_le_floor hle
        _ = 32767 := Int.floor_intCast _
  · constructor
    · have hge : ((-32768:ℤ):ℚ) ≤ s * 32767 := by push_cast; nlinarith
      calc (-32768 : ℤ) = ⌈((-32768:ℤ):ℚ)⌉ := (Int.ceil_intCast _).symm
        _ ≤ ⌈s * 32767⌉ := Int.ceil_mono hge
    · have hle' : s * 32767 ≤ ((0:ℤ):ℚ) := by push_cast; linarith [le_of_not_le h]
      have : ⌈s * 32767⌉ ≤ (0:ℤ) := Int.ceil_le.mpr hle'
      omega

/-- One int16 value in range survives the little-endian byte round
trip. -/
theorem int16_le_roundtrip (i : Int) (h1 : -32768 ≤ i) (h2 : i ≤ 32767)
    (rest : List Nat) :
    decodeInt16LE (int16ToLE i ++ rest) = i :: decodeInt16LE rest := by
  have hmodnn : (0:Int) ≤ i % 65536 := Int.emod_nonneg i (by norm_num)
  have hmodlt : i % 65536 < 65536 := Int.emod_lt_of_pos i (by norm_num)
  have hcast : (((i % 65536).toNat : Int)) = i % 65536 :=
    Int.toNat_of_nonneg hmodnn
  simp only [int16ToLE, List.cons_append, List.nil_append, decodeInt16LE]
  congr 1
  set u := (i % 65536).toNat with hu
  have hsum : u % 256 + 256 * (u / 256) = u := Nat.mod_add_div u 256
  rw [hsum]
  split_ifs with hlt <;> omega

/-- A vector of in-range int16 values survives the byte round trip. -/
theorem decode_encode_int16 (l : List Int)
    (h : ∀ i ∈ l, -32768 ≤ i ∧ i ≤ 32767) :
    decodeInt16LE (int16LEBytes l) = l := by
  induction l with
  | nil => rfl
  | cons a t ih =>
    have ha := h a (List.mem_cons_self a t)
    have ht : ∀ i ∈ t, -32768 ≤ i ∧ i ≤ 32767 :=
      fun i hi => h i (List.mem_cons_of_mem a hi)
    have he : int16LEBytes (a :: t) = int16ToLE a ++ int16LEBytes t := by
      simp [int16LEBytes]
    rw [he, int16_le_roundtrip a ha.1 ha.2, ih ht]

/-- The spec's own test vector evaluated through the code's conversion. -/
theorem quantizeList_test_vector :
    quantizeList [0, 1/2, -(1/2), 1, -1] = [0, 16383, -16383, 32767, -32767] := by
  unfold quantizeList
  rw [List.map_cons, List.map_cons, List.map_cons, List.map_cons,
    List.map_cons, List.map_nil, quantizeSample_zero, quantizeSample_half,
    quantizeSample_neg_half, quantizeSample_one, quantizeSample_neg_one]

/-- C3 counterexample: the conversion is `(x * 32767).astype(np.int16)`
— truncation toward zero, not `round` — so the sample `-1.0` quantizes
to `-32767`, while the claim's expected vector ends in `-32768`; the
quantized test vector therefore differs from every vector the claim
allows. -/
theorem quantize_claim_counterexample :
    quantizeSample (-1) = -32767 ∧ quantizeSample (-1) ≠ -32768 := by
  rw [quantizeSample_neg_one]
  exact ⟨rfl, by norm_num⟩

/-- C3 (amended): quantization truncates `s * 32767` toward zero (the
test vector maps to `[0, 16383, -16383, 32767, -32767]`), and for
samples in `[-1, 1]` the serialized little-endian PCM bytes decode back
to exactly the quantized values (0 LSB of error). -/
theorem quantize_truncation_roundtrip (samples : List ℚ)
    (h : ∀ x ∈ samples, -1 ≤ x ∧ x ≤ 1) :
    quantizeList [0, 1/2, -(1/2), 1, -1] = [0, 16383, -16383, 32767, -32767] ∧
    decodeInt16LE (int16LEBytes (quantizeList samples)) =
      quantizeList samples := by
  refine ⟨quantizeList_test_vector, decode_encode_int16 _ ?_⟩
  intro i hi
  obtain ⟨x, hx, rfl⟩ := List.mem_map.mp hi
  exact quantizeSample_bounds x (h x hx).1 (h x hx).2

/-- Witness for the amended C3 at the spec's concrete test vector. -/
theorem quantize_truncation_roundtrip_witness :
    decodeInt16LE (int16LEBytes (quantizeList [0, 1/2, -(1/2), 1, -1])) =
      quantizeList [0, 1/2, -(1/2), 1, -1] :=
  (quantize_truncation_roundtrip [0, 1/2, -(1/2), 1, -1]
    (by norm_num)).2

/-! ## Orchestration claims -/

/-- A recorder mid-session with one full-scale sample block collected. -/
def recMid : RecState :=
  { recording := true, frames := [[1]], stream := some (),
    audioCallback := false }

/-- Stopping `recMid` succeeds; the single sample `1.0` becomes the
int16 value `32767`, serialized little-endian as `[255, 127]`. -/
theorem stopRecording_recMid_eq :
    stopRecording recMid true =
      ({ recording := false, frames := [[1]], stream := none,
         audioCallback := false }, .artifact [255, 127]) := by
  unfold stopRecording recMid
  simp [quantizeList, quantizeSample_one, int16LEBytes, int16ToLE]

/-- C6: on the Transcribing + result transition with a produced
artifact, an all-whitespace transcription text skips both the history
append and the injection; a non-empty stripped text produces exactly one
history call carrying the text, language and duration and exactly one
injection call with the text; in both cases — and for either injection
outcome — the recorder finishes not recording (Idle). -/
theorem stopDictation_result_handling (rec : RecState) (w : Bool)
    (r : TResult) (injectOk : Bool) (b : List Nat)
    (hrec : isRecording rec = true)
    (hart : (stopRecording rec w).2 = .artifact b) :
    (pyStrip (r.text.getD "") = "" →
      stopDictation rec w (.ok r) injectOk = ((stopRecording rec w).1, [])) ∧
    (pyStrip (r.text.getD "") ≠ "" →
      stopDictation rec w (.ok r) injectOk =
        ((stopRecording rec w).1,
         [OrchCall.historyAdd (pyStrip (r.text.getD ""))
            (r.language.getD "en") (r.duration.getD 0),
          OrchCall.inject (pyStrip (r.text.getD ""))])) ∧
    isRecording (stopDictation rec w (.ok r) injectOk).1 = false := by
  have heq : stopDictation rec w (.ok r) injectOk =
      if pyStrip (r.text.getD "") = "" then ((stopRecording rec w).1, [])
      else ((stopRecording rec w).1,
        [OrchCall.historyAdd (pyStrip (r.text.getD ""))
           (r.language.getD "en") (r.duration.getD 0),
         OrchCall.inject (pyStrip (r.text.getD ""))]) := by
    unfold stopDictation
    rw [hrec]
    simp only [Bool.not_true, Bool.false_eq_true, if_false, hart]
  refine ⟨fun ht => by rw [heq, if_pos ht],
          fun ht => by rw [heq, if_neg ht], ?_⟩
  rw [heq]
  split_ifs <;> exact stopRecording_recording_false rec w

/-- Witness for C6 at the spec's scenario: text `hello world`,
language `en`, duration `1.2` gives one history append and one
injection, with the recorder idle. -/
theorem stopDictation_result_handling_witness :
    stopDictation recMid true
      (.ok { text := some "hello world", language := some "en",
             duration := some (6/5) }) true =
      ({ recording := false, frames := [[1]], stream := none,
         audioCallback := false },
       [OrchCall.historyAdd "hello world" "en" (6/5),
        OrchCall.inject "hello world"]) := by
  have h := (stopDictation_result_handling recMid true
      { text := some "hello world", language := some "en",
        duration := some (6/5) } true [255, 127] rfl
      (by rw [stopRecording_recMid_eq])).2.1 (by decide)
  rw [h, stopRecording_recMid_eq]
  have hstrip : pyStrip ((some "hello world").getD "") = "hello world" := by
    decide
  rw [hstrip]
  rfl

/-- The hotkey manager as configured at startup with the default spec. -/
def mgrDefault : HKManager :=
  { cfg := parseHotkeyConfig "ctrl+space", st := initHKState,
    listenerRunning := true }

/-- C7 counterexample: `reload_hotkey` only queries
`recorder.is_recording()`, and during the Transcribing phase of
`stop_dictation` the recorder has already been stopped (an artifact was
produced and handed to the transcriber), so a reload issued then is NOT
rejected with the busy error — it swaps the spec — contradicting the
claim that reloading while Transcribing fails and leaves the spec
unchanged. -/
theorem reload_while_transcribing_counterexample :
    (stopRecording recMid true).2 = .artifact [255, 127] ∧
    isRecording ((stopRecording recMid true).1) = false ∧
    (reloadHotkey mgrDefault (isRecording ((stopRecording recMid true).1))
      "alt+f5").2 = none ∧
    (reloadHotkey mgrDefault (isRecording ((stopRecording recMid true).1))
      "alt+f5").1.cfg.hotkeyStr = "alt+f5" ∧
    mgrDefault.cfg.hotkeyStr = "ctrl+space" := by
  have h := stopRecording_recMid_eq
  refine ⟨by rw [h], by rw [h]; rfl, ?_, ?_, by decide⟩
  · rw [h]
    decide
  · rw [h]
    decide

/-- C7 (amended): `reload_hotkey` rejects with the busy error exactly
when the recorder reports an active recording, mutating nothing on that
path (the error is raised before any state change); when the recorder is
not recording — including while a transcription of the previous
utterance is still in flight — the spec is swapped (validated, possibly
defaulted) and the pressed set, armed flag and both in-flight flags are
reset before the listener restarts. -/
theorem reloadHotkey_busy_atomic (m : HKManager) (rr : Bool)
    (new : String) :
    (rr = true → reloadHotkey m rr new = (m, some "busy")) ∧
    (rr = false →
      reloadHotkey m rr new =
        ({ cfg := parseHotkeyConfig new, st := initHKState,
           listenerRunning := true }, none)) := by
  constructor <;> intro h <;> subst h <;> rfl

/-- Witness for the amended C7: busy while recording leaves the manager
unchanged; not busy swaps the spec and resets state. -/
theorem reloadHotkey_busy_atomic_witness :
    reloadHotkey mgrDefault true "alt+f5" = (mgrDefault, some "busy") ∧
    reloadHotkey mgrDefault false "alt+f5" =
      ({ cfg := parseHotkeyConfig "alt+f5", st := initHKState,
         listenerRunning := true }, none) :=
  ⟨(reloadHotkey_busy_atomic mgrDefault true "alt+f5").1 rfl,
   (reloadHotkey_busy_atomic mgrDefault false "alt+f5").2 rfl⟩

/-! ## Hotkey edge discipline (activation single-flight, deactivation
per cycle) -/

/-- Counting filters distribute over appended dispatch logs. -/
theorem countActivations_append (a b : List Edge) :
    countActivations (a ++ b) = countActivations a + countActivations b := by
  simp [countActivations, List.filter_append]

/-- Deactivation counts distribute over appended dispatch logs. -/
theorem countDeactivations_append (a b : List Edge) :
    countDeactivations (a ++ b) =
      countDeactivations a + countDeactivations b := by
  simp [countDeactivations, List.filter_append]

/-- An activation edge is dispatched only from a state with no start in
flight, and it sets both the in-flight flag and the armed flag. -/
theorem hkStep_activate_mem (cfg : HKConfig) (s : HKState) (e : HKEvent)
    (h : Edge.activate ∈ (hkStep cfg s e).2) :
    s.startInProgress = false ∧
    (hkStep cfg s e).1.startInProgress = true ∧
    (hkStep cfg s e).1.hotkeyWasActive = true := by
  cases e with
  | press k =>
    simp only [hkStep, onPress] at h ⊢
    split_ifs at h ⊢ <;> simp_all
  | release k =>
    simp only [hkStep, onRelease] at h
    split_ifs at h <;> simp_all
  | startDone => simp [hkStep] at h
  | stopDone => simp [hkStep] at h

/-- Any event other than a start-callback completion that does not
dispatch an activation leaves the start-in-flight flag untouched. -/
theorem hkStep_no_activate (cfg : HKConfig) (s : HKState) (e : HKEvent)
    (h1 : e ≠ HKEvent.startDone)
    (h2 : Edge.activate ∉ (hkStep cfg s e).2) :
    (hkStep cfg s e).1.startInProgress = s.startInProgress := by
  cases e with
  | press k =>
    simp only [hkStep, onPress] at h2 ⊢
    split_ifs at h2 ⊢ <;> simp_all
  | release k =>
    simp only [hkStep, onRelease]
    split_ifs <;> simp_all
  | startDone => exact absurd rfl h1
  | stopDone => rfl

/-- Each event dispatches at most one edge. -/
theorem hkStep_out_cases (cfg : HKConfig) (s : HKState) (e : HKEvent) :
    (hkStep cfg s e).2 = [] ∨ (hkStep cfg s e).2 = [.activate] ∨
    (hkStep cfg s e).2 = [.deactivate] := by
  cases e with
  | press k =>
    simp only [hkStep, onPress]
    split_ifs <;> simp
  | release k =>
    simp only [hkStep, onRelease]
    split_ifs <;> simp
  | startDone => simp [hkStep]
  | stopDone => simp [hkStep]

/-- While no start-callback completion occurs, at most one activation is
dispatched (zero when a start is already in flight). -/
theorem countActivations_le_aux (cfg : HKConfig) (evs : List HKEvent)
    (h : ∀ e ∈ evs, e ≠ HKEvent.startDone) :
    ∀ s : HKState, countActivations (hkRun cfg s evs).2 ≤
      (if s.startInProgress then 0 else 1) := by
  induction evs with
  | nil => intro s; simp [hkRun, countActivations]
  | cons e es ih =>
    intro s
    have he : e ≠ HKEvent.startDone := h e (List.mem_cons_self e es)
    have hes : ∀ x ∈ es, x ≠ HKEvent.startDone :=
      fun x hx => h x (List.mem_cons_of_mem e hx)
    have hrun : hkRun cfg s (e :: es) =
        ((hkRun cfg (hkStep cfg s e).1 es).1,
         (hkStep cfg s e).2 ++ (hkRun cfg (hkStep cfg s e).1 es).2) := by
      simp [hkRun]
    rw [hrun]
    simp only [countActivations_append]
    by_cases hm : Edge.activate ∈ (hkStep cfg s e).2
    · obtain ⟨hs0, hs1, _⟩ := hkStep_activate_mem cfg s e hm
      have hout : countActivations (hkStep cfg s e).2 = 1 := by
        rcases hkStep_out_cases cfg s e with hc | hc | hc <;>
          rw [hc] at hm ⊢ <;> simp_all [countActivations]
      have hrest := ih hes (hkStep cfg s e).1
      rw [hs1] at hrest
      simp at hrest
      rw [hout, hs0, hrest]
      simp
    · have hout : countActivations (hkStep cfg s e).2 = 0 := by
        rcases hkStep_out_cases cfg s e with hc | hc | hc <;>
          rw [hc] at hm ⊢ <;> simp_all [countActivations]
      have hsip := hkStep_no_activate cfg s e he hm
      have hrest := ih hes (hkStep cfg s e).1
      rw [hsip] at hrest
      omega

/-- Releasing a key that does not match the action key only updates the
pressed-modifier set. -/
theorem onRelease_nonaction (cfg : HKConfig) (s : HKState) (k : PKey)
    (h : actionMatches cfg k = false) :
    onRelease cfg s k =
      ({ s with pressedModifiers :=
          releaseRemoveModifier cfg k s.pressedModifiers }, []) := by
  simp only [onRelease, h]
  simp

/-- Releasing the action key while armed with no stop in flight fires
the deactivation edge and clears the armed flag. -/
theorem onRelease_action_fire (cfg : HKConfig) (s : HKState) (k : PKey)
    (hk : actionMatches cfg k = true)
    (ha : s.hotkeyWasActive = true) (hs : s.stopInProgress = false) :
    onRelease cfg s k =
      ({ s with
          pressedModifiers := releaseRemoveModifier cfg k s.pressedModifiers,
          hotkeyWasActive := false, stopInProgress := true },
       [.deactivate]) := by
  simp only [onRelease, hk, ha, hs]
  simp

/-- Events that are key releases not matching the action key. -/
def isNonActionRelease (cfg : HKConfig) : HKEvent → Bool
  | .release k => !(actionMatches cfg k)
  | _ => false

/-- Releasing any interleaving of non-action keys followed by the action
key, from an armed state with no stop in flight, dispatches exactly one
deactivation and disarms. -/
theorem deactivation_cycle_aux (cfg : HKConfig) :
    ∀ rels : List HKEvent, rels.all (isNonActionRelease cfg) = true →
    ∀ s : HKState, s.hotkeyWasActive = true → s.stopInProgress = false →
    ∀ k : PKey, actionMatches cfg k = true →
    countDeactivations (hkRun cfg s (rels ++ [.release k])).2 = 1 ∧
    (hkRun cfg s (rels ++ [.release k])).1.hotkeyWasActive = false := by
  intro rels
  induction rels with
  | nil =>
    intro _ s ha hs k hk
    simp [hkRun, hkStep, onRelease_action_fire cfg s k hk ha hs,
      countDeactivations]
  | cons e es ih =>
    intro hall s ha hs k hk
    simp only [List.all_cons, Bool.and_eq_true] at hall
    obtain ⟨he, hes⟩ := hall
    cases e with
    | press k' => simp [isNonActionRelease] at he
    | startDone => simp [isNonActionRelease] at he
    | stopDone => simp [isNonActionRelease] at he
    | release k' =>
      have hk' : actionMatches cfg k' = false := by
        simpa [isNonActionRelease] using he
      have hstep : hkStep cfg s (.release k') =
          ({ s with pressedModifiers :=
              releaseRemoveModifier cfg k' s.pressedModifiers }, []) := by
        simp [hkStep, onRelease_nonaction cfg s k' hk']
      have hrun : hkRun cfg s ((HKEvent.release k' :: es) ++ [.release k]) =
          ((hkRun cfg (hkStep cfg s (.release k')).1
              (es ++ [.release k])).1,
           (hkStep cfg s (.release k')).2 ++
             (hkRun cfg (hkStep cfg s (.release k')).1
               (es ++ [.release k])).2) := by
        simp [hkRun]
      rw [hrun, hstep]
      have := ih hes
        { s with pressedModifiers :=
            releaseRemoveModifier cfg k' s.pressedModifiers }
        (by simpa using ha) (by simpa using hs) k hk
      simpa [countDeactivations_append, countDeactivations] using this

/-- The default configuration, as parsed at startup. -/
def cfgDefault : HKConfig := parseHotkeyConfig "ctrl+space"

/-- A press-and-hold cycle with key auto-repeat: ctrl down, space down
(start dispatched), the start callback returns, a repeated space down
with no intervening release. -/
def autoRepeatTrace : List HKEvent :=
  [.press (.named "ctrl_l"), .press (.named "space"), .startDone,
   .press (.named "space")]

/-- C1 counterexample: activation is gated by `start_in_progress`, not
by the armed flag — after the start callback returns, an auto-repeated
action-key-down fires a second activation edge within the same
press-and-hold cycle (no action-key release in between), and it fires
from a state in which the combination is already armed. -/
theorem activation_refires_counterexample :
    (hkRun cfgDefault initHKState autoRepeatTrace).2 =
      [.activate, .activate] ∧
    (hkRun cfgDefault initHKState (autoRepeatTrace.take 3)).1.hotkeyWasActive
      = true ∧
    (hkStep cfgDefault
      (hkRun cfgDefault initHKState (autoRepeatTrace.take 3)).1
      (.press (.named "space"))).2 = [.activate] := by
  refine ⟨?_, ?_, ?_⟩ <;> decide

/-- C1 (amended): activation dispatch is guarded by the
`start_in_progress` single-flight flag rather than the armed flag: while
the dispatched start callback has not completed (no `startDone` event),
at most one activation edge fires — in particular auto-repeated
action-key-downs are ignored during that window — and any activation
edge fires only from a state with no start in flight and leaves the
combination armed. -/
theorem activation_singleflight (cfg : HKConfig) (s : HKState)
    (evs : List HKEvent) (h : ∀ e ∈ evs, e ≠ HKEvent.startDone) :
    countActivations (hkRun cfg s evs).2 ≤ 1 ∧
    (∀ e, Edge.activate ∈ (hkStep cfg s e).2 →
      s.startInProgress = false ∧
      (hkStep cfg s e).1.hotkeyWasActive = true) := by
  constructor
  · have hb := countActivations_le_aux cfg evs h s
    split_ifs at hb <;> omega
  · intro e he
    obtain ⟨h1, _, h3⟩ := hkStep_activate_mem cfg s e he
    exact ⟨h1, h3⟩

/-- Witness for the amended C1: the auto-repeat burst with no start
completion dispatches at most one activation. -/
theorem activation_singleflight_witness :
    countActivations (hkRun cfgDefault initHKState
      [.press (.named "ctrl_l"), .press (.named "space"),
       .press (.named "space")]).2 ≤ 1 :=
  (activation_singleflight cfgDefault initHKState
    [.press (.named "ctrl_l"), .press (.named "space"),
     .press (.named "space")] (by decide)).1

/-- C2: from an armed state with no stop in flight, releasing any
sequence of non-action keys (e.g. all the modifiers) followed by the
action key dispatches exactly one deactivation edge and clears the armed
flag; and releasing a key that does not match the action key never
dispatches an edge nor changes the armed flag. -/
theorem deactivation_edge_once (cfg : HKConfig) (s : HKState)
    (rels : List HKEvent) (k : PKey)
    (ha : s.hotkeyWasActive = true) (hs : s.stopInProgress = false)
    (hrels : rels.all (isNonActionRelease cfg) = true)
    (hk : actionMatches cfg k = true) :
    (countDeactivations (hkRun cfg s (rels ++ [.release k])).2 = 1 ∧
     (hkRun cfg s (rels ++ [.release k])).1.hotkeyWasActive = false) ∧
    (∀ s' : HKState, ∀ k' : PKey, actionMatches cfg k' = false →
      (hkStep cfg s' (.release k')).2 = [] ∧
      (hkStep cfg s' (.release k')).1.hotkeyWasActive =
        s'.hotkeyWasActive) := by
  refine ⟨deactivation_cycle_aux cfg rels hrels s ha hs k hk, ?_⟩
  intro s' k' hk'
  have h := onRelease_nonaction cfg s' k' hk'
  constructor
  · show (onRelease cfg s' k').2 = []
    rw [h]
  · show (onRelease cfg s' k').1.hotkeyWasActive = s'.hotkeyWasActive
    rw [h]

/-- Witness for C2: ctrl released strictly before space still yields
exactly one deactivation, from the armed state reached by pressing
ctrl then space. -/
theorem deactivation_edge_once_witness :
    countDeactivations (hkRun cfgDefault
      { pressedModifiers := ["ctrl"], hotkeyWasActive := true,
        startInProgress := true, stopInProgress := false }
      ([.release (.named "ctrl_l")] ++ [.release (.named "space")])).2 = 1 :=
  ((deactivation_edge_once cfgDefault
    { pressedModifiers := ["ctrl"], hotkeyWasActive := true,
      startInProgress := true, stopInProgress := false }
    [.release (.named "ctrl_l")] (.named "space")
    rfl rfl (by decide) (by decide)).1).1

end CuteWhisper
